import Mathlib

/-!
HackerOne scope harvester (`pkg/platforms/hackerone/hackerone.go`).

A shallow embedding of the HackerOne platform plugin of bbscope and the proofs of
its specified properties.

Modelling conventions.

* `whttp.SendHTTPRequest` is an external collaborator.  It is a parameter
  `send : Transport`: the answer (a transport error or a response) to the `n`-th
  request issued by the function under study, for the request that was sent.
* A response body is only ever inspected through `gjson.Get` on fixed paths and
  through `strings.Contains(_, ":401}")`.  `Body` records what these queries
  return; a path that is absent reads as the zero value (`""`, `false`, length 0),
  as in gjson.
* `log.Fatal` ends the process: every function returns a `Run`, the log of the
  observable events (requests and sleeps) together with either a value or the
  fatal condition.
* The unbounded `for` of `getProgramHandles` is run with fuel; `none` means that
  the fuel ran out.
* Go strings are modelled by `String`, that is, by valid sequences of runes.
* `GetAllProgramsScope` and `PrintAllScope` are not embedded: the first runs 50
  goroutines that append to one shared slice, the second only prints.
-/

namespace Hackerone

/-! ## Constants -/

def RATE_LIMIT_WAIT_TIME_SEC : Nat := 5
def RATE_LIMIT_MAX_RETRIES : Nat := 10
def RATE_LIMIT_HTTP_STATUS : Int := 429

/-! ## Data model -/

/-- One header of a request (`whttp.WHTTPHeader`). -/
structure WHTTPHeader where
  Name : String
  Value : String
  deriving DecidableEq, Repr

/-- A request (`whttp.WHTTPReq`), with the fields the plugin sets. -/
structure WHTTPReq where
  Method : String
  URL : String
  Headers : List WHTTPHeader
  deriving DecidableEq, Repr

/-- The `attributes` of the entry `relationships.structured_scopes.data.i` of a
program detail payload, each field holding what the source reads from it
(`.Str` for the strings, `.Bool()` for the flags). -/
structure StructuredScope where
  asset_type : String
  asset_identifier : String
  instruction : String
  eligible_for_submission : Bool
  eligible_for_bounty : Bool
  deriving DecidableEq, Repr

/-- The `attributes` of the entry `data.i` of a listing page (`.Str` of each). -/
structure Program where
  handle : String
  state : String
  submission_state : String
  deriving DecidableEq, Repr

/-- What the plugin can observe of a response body. -/
structure Body where
  /-- The value of `strings.Contains(BodyString, ":401}")`. -/
  contains401 : Bool
  /-- The array at `data` (listing page). -/
  data : List Program
  /-- The value of `gjson.Get(BodyString, "links.next").Str`. -/
  linksNext : String
  /-- The array at `relationships.structured_scopes.data` (program detail). -/
  structuredScopes : List StructuredScope
  deriving DecidableEq, Repr

/-- A response (`whttp.WHTTPRes`). -/
structure WHTTPRes where
  StatusCode : Int
  BodyString : Body
  deriving DecidableEq, Repr

/-- An element of a scope table (`scope.ScopeElement`). -/
structure ScopeElement where
  Target : String
  Description : String
  Category : String
  deriving DecidableEq, Repr

/-- The scope of one program (`scope.ProgramData`), with the fields the plugin sets. -/
structure ProgramData where
  Url : String
  InScope : List ScopeElement
  deriving DecidableEq, Repr

/-- The calls of `log.Fatal` in the plugin. -/
inductive Fatal where
  /-- `log.Fatal("HTTP request failed: ", err)` -/
  | httpRequestFailed (err : String)
  /-- `log.Fatal("Could not retrieve data for id ", id, " with status ", lastStatus)` -/
  | couldNotRetrieve (id : String) (lastStatus : Int)
  /-- `log.Fatal("Status Code:", res.StatusCode)` -/
  | statusCode (status : Int)
  /-- `log.Fatal("Invalid username or token")` -/
  | invalidUsernameOrToken
  /-- `log.Fatal("Invalid category")` -/
  | invalidCategory
  deriving DecidableEq, Repr

/-- How a call ends: with a value, or by aborting the process. -/
inductive Outcome (α : Type) where
  | ok (value : α)
  | fatal (f : Fatal)
  deriving DecidableEq, Repr

/-- The observable effects of a run. -/
inductive Event where
  /-- A call of `whttp.SendHTTPRequest`. -/
  | request (req : WHTTPReq)
  /-- A call of `time.Sleep(seconds * time.Second)`. -/
  | sleep (seconds : Nat)
  deriving DecidableEq, Repr

/-- A run: the events in the order they happened, and how the call ended. -/
structure Run (α : Type) where
  log : List Event
  result : Outcome α
  deriving DecidableEq, Repr

/-- The answer of `whttp.SendHTTPRequest` to the `n`-th request (counted from 0)
of a call: an error (`err != nil`) or a response. -/
abbrev Transport := Nat → WHTTPReq → Except String WHTTPRes

/-- The number of requests in a log. -/
def requestCount (log : List Event) : Nat :=
  log.countP (fun e => match e with
    | Event.request _ => true
    | Event.sleep _ => false)

/-- The number of sleeps of `seconds` seconds in a log. -/
def sleepCount (seconds : Nat) (log : List Event) : Nat :=
  log.count (Event.sleep seconds)

/-! ## `getProgramScope` -/

/-- `strings.ReplaceAll(s, "\n", "  ")` on the runes of `s`: the pattern is the
single byte 0x0A, which is never part of a longer UTF-8 sequence. -/
def replaceNewlines : List Char → List Char
  | [] => []
  | c :: cs =>
    if c = '\n' then ' ' :: ' ' :: replaceNewlines cs else c :: replaceNewlines cs

/-- `strings.ReplaceAll(s, "\n", "  ")`. -/
def ReplaceAllNewlines (s : String) : String :=
  String.mk (replaceNewlines s.data)

/-- The request of `getProgramScope` (lines 29-35). -/
def detailRequest (authorization id : String) : WHTTPReq :=
  { Method := "GET"
    URL := "https://api.hackerone.com/v1/hackers/programs/" ++ id
    Headers := [{ Name := "Authorization", Value := "Basic " ++ authorization }] }

/-- The state `(res, lastStatus)` of the retry loop. -/
structure RetryState where
  res : WHTTPRes
  lastStatus : Int
  deriving DecidableEq, Repr

/-- The loop `for i := 0; i < RATE_LIMIT_MAX_RETRIES; i++` of lines 27-49, entered
with `remaining = RATE_LIMIT_MAX_RETRIES - i` iterations left. -/
def retryLoop (send : Transport) (req : WHTTPReq) :
    (remaining i : Nat) → RetryState → List Event → Run RetryState
  | 0, _, st, log => ⟨log, Outcome.ok st⟩
  | remaining + 1, i, _, log =>
    match send i req with
    | Except.error err => ⟨log ++ [Event.request req], Outcome.fatal (Fatal.httpRequestFailed err)⟩
    | Except.ok res =>
      if res.StatusCode ≠ RATE_LIMIT_HTTP_STATUS then
        -- exit the loop if we succeeded
        ⟨log ++ [Event.request req], Outcome.ok ⟨res, res.StatusCode⟩⟩
      else
        -- encountered rate limit
        retryLoop send req remaining (i + 1) ⟨res, res.StatusCode⟩
          (log ++ [Event.request req, Event.sleep RATE_LIMIT_WAIT_TIME_SEC])

/-- The inner loop of lines 62-67: is `assetCategory` one of `categories`? -/
def catFound (assetCategory : String) : List String → Bool
  | [] => false
  | cat :: rest => if cat = assetCategory then true else catFound assetCategory rest

/-- What gjson returns for the attributes of an entry that does not exist. -/
def StructuredScope.zero : StructuredScope :=
  { asset_type := "", asset_identifier := "", instruction := "",
    eligible_for_submission := false, eligible_for_bounty := false }

/-- The body of the loop of lines 58-80 at index `i`. -/
def scopeStep (body : Body) (bbpOnly : Bool) (categories : List String)
    (inScope : List ScopeElement) (i : Nat) : List ScopeElement :=
  let attrs := body.structuredScopes.getD i StructuredScope.zero
  if catFound attrs.asset_type categories then
    if attrs.eligible_for_submission then
      if !bbpOnly || (bbpOnly && attrs.eligible_for_bounty) then
        inScope ++ [{ Target := attrs.asset_identifier
                      Description := ReplaceAllNewlines attrs.instruction
                      Category := "" }]
      else inScope
    else inScope
  else inScope

/-- Lines 55-86: the `ProgramData` built from the body of the final response. -/
def buildProgramData (id : String) (body : Body) (bbpOnly : Bool)
    (categories : List String) : ProgramData :=
  let l := body.structuredScopes.length
  let inScope := (List.range l).foldl (scopeStep body bbpOnly categories) []
  let inScope :=
    if l = 0 then
      inScope ++ [{ Target := "NO_IN_SCOPE_TABLE", Description := "", Category := "" }]
    else inScope
  { Url := "https://hackerone.com/" ++ id, InScope := inScope }

/-- The function `getProgramScope` (lines 22-87). -/
def getProgramScope (send : Transport) (authorization id : String) (bbpOnly : Bool)
    (categories : List String) : Run ProgramData :=
  let start : RetryState := ⟨⟨0, ⟨false, [], "", []⟩⟩, -1⟩
  match retryLoop send (detailRequest authorization id) RATE_LIMIT_MAX_RETRIES 0 start [] with
  | ⟨log, Outcome.fatal f⟩ => ⟨log, Outcome.fatal f⟩
  | ⟨log, Outcome.ok st⟩ =>
    if st.lastStatus > 200 then
      ⟨log, Outcome.fatal (Fatal.couldNotRetrieve id st.lastStatus)⟩
    else
      ⟨log, Outcome.ok (buildProgramData id st.res.BodyString bbpOnly categories)⟩

/-! ## `getCategories` -/

/-- `unicode.ToLower(r)`: below `utf8.RuneSelf` the letters `A`-`Z` are shifted by
`'a' - 'A'` and every other rune is kept; above, the rune is looked up in the case
tables of Go's `unicode` package, which this function takes as `caseTable`. -/
def unicodeToLower (caseTable : Char → Char) (r : Char) : Char :=
  if r.toNat ≤ 127 then
    if 65 ≤ r.toNat ∧ r.toNat ≤ 90 then Char.ofNat (r.toNat + 32) else r
  else caseTable r

/-- `strings.ToLower(s)`: every rune of `s` mapped by `unicode.ToLower` (the ASCII
fast path of the library computes the same string). -/
def ToLower (caseTable : Char → Char) (s : String) : String :=
  String.mk (s.data.map (unicodeToLower caseTable))

/-- The map literal `categories` of lines 90-101. -/
def categories : List (String × List String) :=
  [ ("url", ["URL"]),
    ("cidr", ["CIDR"]),
    ("mobile", ["GOOGLE_PLAY_APP_ID", "OTHER_APK", "APPLE_STORE_APP_ID"]),
    ("android", ["GOOGLE_PLAY_APP_ID", "OTHER_APK"]),
    ("apple", ["APPLE_STORE_APP_ID"]),
    ("other", ["OTHER"]),
    ("hardware", ["HARDWARE"]),
    ("code", ["SOURCE_CODE"]),
    ("executable", ["DOWNLOADABLE_EXECUTABLES"]),
    ("all", ["URL", "CIDR", "GOOGLE_PLAY_APP_ID", "OTHER_APK", "APPLE_STORE_APP_ID", "OTHER",
      "HARDWARE", "SOURCE_CODE", "DOWNLOADABLE_EXECUTABLES"]) ]

/-- The function `getCategories` (lines 89-108). -/
def getCategories (caseTable : Char → Char) (input : String) : Outcome (List String) :=
  match categories.lookup (ToLower caseTable input) with
  | some selectedCategory => Outcome.ok selectedCategory
  | none => Outcome.fatal Fatal.invalidCategory

/-! ## `getProgramHandles` -/

/-- The request of `getProgramHandles` (lines 114-120). -/
def listingRequest (authorization currentURL : String) : WHTTPReq :=
  { Method := "GET"
    URL := currentURL
    Headers := [{ Name := "Authorization", Value := "Basic " ++ authorization }] }

/-- The URL of the first listing page (line 111). -/
def firstListingURL : String := "https://api.hackerone.com/v1/hackers/programs"

/-- What gjson returns for the attributes of a program that does not exist. -/
def Program.zero : Program :=
  { handle := "", state := "", submission_state := "" }

/-- The body of the loop of lines 134-158 at index `i`. -/
def handlesStep (body : Body) (pvtOnly publicOnly active : Bool) (handles : List String)
    (i : Nat) : List String :=
  let attrs := body.data.getD i Program.zero
  let handle := attrs.handle
  if !publicOnly then
    if !pvtOnly || (pvtOnly && attrs.state = "soft_launched") then
      if active then
        if attrs.submission_state = "open" then handles ++ [handle] else handles
      else handles ++ [handle]
    else handles
  else
    if attrs.state = "public_mode" then
      if active then
        if attrs.submission_state = "open" then handles ++ [handle] else handles
      else handles ++ [handle]
    else handles

/-- The loop `for { ... }` of lines 112-166, entered for the `n`-th request with the
cursor `currentURL` and the handles collected so far.  `none`: out of fuel. -/
def handlesLoop (send : Transport) (authorization : String) (pvtOnly publicOnly active : Bool) :
    (fuel n : Nat) → (currentURL : String) → (handles : List String) → List Event →
    Option (Run (List String))
  | 0, _, _, _, _ => none
  | fuel + 1, n, currentURL, handles, log =>
    let req := listingRequest authorization currentURL
    match send n req with
    | Except.error err =>
      some ⟨log ++ [Event.request req], Outcome.fatal (Fatal.httpRequestFailed err)⟩
    | Except.ok res =>
      if res.StatusCode ≠ 200 then
        some ⟨log ++ [Event.request req], Outcome.fatal (Fatal.statusCode res.StatusCode)⟩
      else if res.BodyString.contains401 then
        some ⟨log ++ [Event.request req], Outcome.fatal Fatal.invalidUsernameOrToken⟩
      else
        let handles := (List.range res.BodyString.data.length).foldl
          (handlesStep res.BodyString pvtOnly publicOnly active) handles
        let currentURL := res.BodyString.linksNext
        -- We reached the end
        if currentURL = "" then
          some ⟨log ++ [Event.request req], Outcome.ok handles⟩
        else
          handlesLoop send authorization pvtOnly publicOnly active fuel (n + 1) currentURL handles
            (log ++ [Event.request req])

/-- The function `getProgramHandles` (lines 110-169). -/
def getProgramHandles (send : Transport) (authorization : String)
    (pvtOnly publicOnly active : Bool) (fuel : Nat) : Option (Run (List String)) :=
  handlesLoop send authorization pvtOnly publicOnly active fuel 0 firstListingURL [] []

/-! ## Specification vocabulary and sample inputs -/

/-- The endpoint answers the first `K` requests `req` of a call with the rate-limit
status and the next one with `res`. -/
def AnswersAfter (send : Transport) (req : WHTTPReq) (K : Nat) (res : WHTTPRes) : Prop :=
  (∀ n, n < K → ∃ b, send n req = Except.ok ⟨RATE_LIMIT_HTTP_STATUS, b⟩) ∧
    send K req = Except.ok res

/-- The log of a retry loop that was rate limited `K` times and then went through:
`K` times a request followed by a sleep of the wait time, and a last request. -/
def retriedLog (req : WHTTPReq) (K : Nat) : List Event :=
  (List.replicate K [Event.request req, Event.sleep RATE_LIMIT_WAIT_TIME_SEC]).flatten ++
    [Event.request req]

/-- The scope element that the specification gives for an entry that is kept: the
asset identifier, the instruction with every line break replaced by two spaces, and an
empty category. -/
def scopeElementOf (e : StructuredScope) : ScopeElement :=
  { Target := e.asset_identifier
    Description := String.mk (e.instruction.data.flatMap
      (fun c => if c = '\n' then [' ', ' '] else [c]))
    Category := "" }

/-- The filter of the specification on a structured-scope entry: its asset type is in
the category filter, it is eligible for submission and, when `bbpOnly` is set, eligible
for bounty. -/
def passesFilter (bbpOnly : Bool) (categories : List String) (e : StructuredScope) : Prop :=
  e.asset_type ∈ categories ∧ e.eligible_for_submission = true ∧
    (bbpOnly = true → e.eligible_for_bounty = true)

instance decidablePassesFilter (bbpOnly : Bool) (categories : List String)
    (e : StructuredScope) :
    Decidable (passesFilter bbpOnly categories e) := by
  unfold passesFilter; infer_instance

/-- The step of the scope loop on the attributes of the entry. -/
def scopeOn (bbpOnly : Bool) (categories : List String) (inScope : List ScopeElement)
    (e : StructuredScope) : List ScopeElement :=
  if passesFilter bbpOnly categories e then inScope ++ [scopeElementOf e] else inScope

/-- The filter of the specification on a listed program: state `public_mode` when
public-only is set, state `soft_launched` when private-only is set, submission state
`open` when active-only is set. -/
def SpecMatches (pvtOnly publicOnly active : Bool) (p : Program) : Prop :=
  (publicOnly = true → p.state = "public_mode") ∧
    (pvtOnly = true → p.state = "soft_launched") ∧
    (active = true → p.submission_state = "open")

instance decidableSpecMatches (pvtOnly publicOnly active : Bool) (p : Program) :
    Decidable (SpecMatches pvtOnly publicOnly active p) := by
  unfold SpecMatches; infer_instance

/-- The handles of the programs of a page that satisfy the predicate, in page order. -/
def pageHandles (pvtOnly publicOnly active : Bool) (b : Body) : List String :=
  (b.data.filter (fun p => decide (SpecMatches pvtOnly publicOnly active p))).map Program.handle

/-- From the `n`-th request on and starting at the cursor `url`, the endpoint serves
the pages `pages` one after the other: each with status 200, without the
authentication-failure marker, and with a cursor to the next page. -/
def ServesPages (send : Transport) (authorization : String) : Nat → String → List Body → Prop
  | _, _, [] => True
  | n, url, b :: rest =>
    send n (listingRequest authorization url) = Except.ok ⟨200, b⟩ ∧ b.contains401 = false ∧
      b.linksNext ≠ "" ∧ ServesPages send authorization (n + 1) b.linksNext rest

/-- The cursor reached from `url` after the pages `pages`. -/
def cursorAfter : String → List Body → String
  | url, [] => url
  | _, b :: rest => cursorAfter b.linksNext rest

/-- The URLs at which the pages `pages` are found, starting at `url`. -/
def pageURLs : String → List Body → List String
  | _, [] => []
  | url, b :: rest => url :: pageURLs b.linksNext rest

/-- The step of the handles loop on the attributes of the program. -/
def handlesOn (pvtOnly publicOnly active : Bool) (handles : List String) (p : Program) :
    List String :=
  if SpecMatches pvtOnly publicOnly active p then handles ++ [p.handle] else handles

/-- The handles collected by the loop over the pages `pages`, one after the other. -/
def collectPages (pvtOnly publicOnly active : Bool) : List String → List Body → List String
  | handles, [] => handles
  | handles, b :: rest =>
    collectPages pvtOnly publicOnly active
      ((List.range b.data.length).foldl (handlesStep b pvtOnly publicOnly active) handles) rest

/-- A body with nothing in it. -/
def emptyBody : Body := ⟨false, [], "", []⟩

/-- A program detail payload with two structured-scope entries. -/
def sampleDetail : Body :=
  ⟨false, [], "", [⟨"URL", "a.example.com", "line one\nline two", true, false⟩,
    ⟨"CIDR", "10.0.0.0/8", "", true, true⟩]⟩

/-- A detail endpoint that is rate limited `K` times and then answers `status` with `body`. -/
def limitedEndpoint (K : Nat) (status : Int) (body : Body) : Transport :=
  fun n _ => if n < K then Except.ok ⟨RATE_LIMIT_HTTP_STATUS, emptyBody⟩ else Except.ok ⟨status, body⟩

/-- The second page of the sample listing. -/
def samplePage2 : Body :=
  ⟨false, [⟨"gamma", "public_mode", "paused"⟩, ⟨"delta", "soft_launched", "open"⟩], "", []⟩

/-- The first page of the sample listing. -/
def samplePage1 : Body :=
  ⟨false, [⟨"alpha", "public_mode", "open"⟩, ⟨"beta", "soft_launched", "open"⟩],
    "https://api.hackerone.com/v1/hackers/programs?page=2", []⟩

/-- A listing endpoint with two pages, addressed by URL. -/
def sampleListing : Transport :=
  fun _ req =>
    if req.URL = firstListingURL then Except.ok ⟨200, samplePage1⟩
    else if req.URL = "https://api.hackerone.com/v1/hackers/programs?page=2" then
      Except.ok ⟨200, samplePage2⟩
    else Except.ok ⟨404, emptyBody⟩

/-- A listing endpoint that serves `samplePage1` and then answers 429. -/
def limitedSecondPage : Transport :=
  fun n _ => if n = 0 then Except.ok ⟨200, samplePage1⟩ else Except.ok ⟨429, emptyBody⟩

/-- Two keywords differ at most in letter case: they have the same length and, position
by position, runes with the same lower-case form. -/
def CaseVariant (caseTable : Char → Char) (k k' : String) : Prop :=
  List.Forall₂ (fun a b => unicodeToLower caseTable a = unicodeToLower caseTable b) k.data k'.data

/-- The keywords of the map `categories` other than `"all"`. -/
def otherKeywords : List String :=
  (categories.map Prod.fst).filter (fun k => decide (k ≠ "all"))

/-! ## Lemmas and theorems -/

theorem foldl_range_getD {α β : Type} (f : β → α → β) (d : α) (l : List α) (init : β) :
    (List.range l.length).foldl (fun acc i => f acc (l.getD i d)) init = l.foldl f init := by
  have h : (List.range l.length).map (fun i => l.getD i d) = l := by
    apply List.ext_getElem
    · simp
    · intro n h₁ h₂
      simp at h₁
      simp [List.getD_eq_getElem, h₁]
  calc (List.range l.length).foldl (fun acc i => f acc (l.getD i d)) init
      = ((List.range l.length).map (fun i => l.getD i d)).foldl f init := by
        rw [List.foldl_map]
    _ = l.foldl f init := by rw [h]

theorem catFound_iff (a : String) (cats : List String) : catFound a cats = true ↔ a ∈ cats := by
  induction cats with
  | nil => simp [catFound]
  | cons c rest ih =>
    by_cases h : c = a
    · simp [catFound, h]
    · have h' : ¬ a = c := fun e => h e.symm
      simp [catFound, h, h', ih]

theorem replaceNewlines_eq_flatMap (cs : List Char) :
    replaceNewlines cs = cs.flatMap (fun c => if c = '\n' then [' ', ' '] else [c]) := by
  induction cs with
  | nil => rfl
  | cons c cs ih =>
    by_cases h : c = '\n'
    · simp [replaceNewlines, h, ih]
    · simp [replaceNewlines, h, ih]

theorem scopeStep_eq (body : Body) (bbpOnly : Bool) (cats : List String) :
    scopeStep body bbpOnly cats =
      fun acc i => scopeOn bbpOnly cats acc (body.structuredScopes.getD i StructuredScope.zero) := by
  funext acc i
  simp only [scopeStep, scopeOn, passesFilter, scopeElementOf, ReplaceAllNewlines,
    replaceNewlines_eq_flatMap]
  generalize body.structuredScopes.getD i StructuredScope.zero = e
  by_cases h₁ : e.asset_type ∈ cats
  · have h₁' := (catFound_iff _ _).2 h₁
    cases h₂ : e.eligible_for_submission <;> cases h₃ : e.eligible_for_bounty <;>
      cases bbpOnly <;> simp [h₁, h₁']
  · have h₁' : catFound e.asset_type cats = false := by
      cases hc : catFound e.asset_type cats
      · rfl
      · exact absurd ((catFound_iff _ _).1 hc) h₁
    simp [h₁, h₁']

theorem foldl_scopeOn (bbpOnly : Bool) (cats : List String) (l : List StructuredScope)
    (init : List ScopeElement) :
    l.foldl (scopeOn bbpOnly cats) init =
      init ++ (l.filter (fun e => decide (passesFilter bbpOnly cats e))).map scopeElementOf := by
  induction l generalizing init with
  | nil => simp
  | cons e l ih =>
    by_cases h : passesFilter bbpOnly cats e
    · simp [List.foldl_cons, ih, scopeOn, h]
    · simp [List.foldl_cons, ih, scopeOn, h]

theorem buildProgramData_InScope (id : String) (body : Body) (bbpOnly : Bool)
    (cats : List String) :
    (buildProgramData id body bbpOnly cats).InScope =
      if body.structuredScopes = [] then
        [{ Target := "NO_IN_SCOPE_TABLE", Description := "", Category := "" }]
      else
        (body.structuredScopes.filter
          (fun e => decide (passesFilter bbpOnly cats e))).map scopeElementOf := by
  simp only [buildProgramData, scopeStep_eq]
  rw [foldl_range_getD (scopeOn bbpOnly cats) StructuredScope.zero, foldl_scopeOn]
  by_cases h : body.structuredScopes = []
  · simp [h]
  · simp [h]

theorem buildProgramData_Url (id : String) (body : Body) (bbpOnly : Bool) (cats : List String) :
    (buildProgramData id body bbpOnly cats).Url = "https://hackerone.com/" ++ id := rfl

theorem retryLoop_answersAfter (send : Transport) (req : WHTTPReq) (res : WHTTPRes) (K : Nat) :
    ∀ (remaining i : Nat) (st : RetryState) (log : List Event), K < remaining →
      (∀ n, n < K → ∃ b, send (i + n) req = Except.ok ⟨RATE_LIMIT_HTTP_STATUS, b⟩) →
      send (i + K) req = Except.ok res → res.StatusCode ≠ RATE_LIMIT_HTTP_STATUS →
      retryLoop send req remaining i st log =
        ⟨log ++ retriedLog req K, Outcome.ok ⟨res, res.StatusCode⟩⟩ := by
  induction K with
  | zero =>
    intro remaining i st log hlt _ hK hne
    obtain ⟨r, rfl⟩ : ∃ r, remaining = r + 1 := ⟨remaining - 1, by omega⟩
    simp only [Nat.add_zero] at hK
    simp [retryLoop, hK, hne, retriedLog]
  | succ K ih =>
    intro remaining i st log hlt hpre hK hne
    obtain ⟨r, rfl⟩ : ∃ r, remaining = r + 1 := ⟨remaining - 1, by omega⟩
    obtain ⟨b, hb⟩ := hpre 0 (by omega)
    simp only [Nat.add_zero] at hb
    have hrec := ih r (i + 1) ⟨⟨RATE_LIMIT_HTTP_STATUS, b⟩, RATE_LIMIT_HTTP_STATUS⟩
      (log ++ [Event.request req, Event.sleep RATE_LIMIT_WAIT_TIME_SEC]) (by omega)
      (fun n hn => by
        obtain ⟨b', hb'⟩ := hpre (n + 1) (by omega)
        exact ⟨b', by rw [← hb']; congr 1; omega⟩)
      (by rw [← hK]; congr 1; omega) hne
    simp only [retryLoop, hb, ne_eq, not_true_eq_false, if_false]
    rw [hrec]
    simp [retriedLog, List.replicate_succ]

theorem retryLoop_allLimited (send : Transport) (req : WHTTPReq) :
    ∀ (remaining i : Nat) (st : RetryState) (log : List Event),
      (∀ n, n < remaining → ∃ b, send (i + n) req = Except.ok ⟨RATE_LIMIT_HTTP_STATUS, b⟩) →
      (0 < remaining ∨ st.lastStatus = RATE_LIMIT_HTTP_STATUS) →
      ∃ st', st'.lastStatus = RATE_LIMIT_HTTP_STATUS ∧
        retryLoop send req remaining i st log =
          ⟨log ++ (List.replicate remaining
            [Event.request req, Event.sleep RATE_LIMIT_WAIT_TIME_SEC]).flatten, Outcome.ok st'⟩ := by
  intro remaining
  induction remaining with
  | zero =>
    intro i st log _ h
    rcases h with h | h
    · omega
    · exact ⟨st, h, by simp [retryLoop]⟩
  | succ r ih =>
    intro i st log hall _
    obtain ⟨b, hb⟩ := hall 0 (by omega)
    simp only [Nat.add_zero] at hb
    obtain ⟨st', hst', hrun⟩ := ih (i + 1) ⟨⟨RATE_LIMIT_HTTP_STATUS, b⟩, RATE_LIMIT_HTTP_STATUS⟩
      (log ++ [Event.request req, Event.sleep RATE_LIMIT_WAIT_TIME_SEC])
      (fun n hn => by
        obtain ⟨b', hb'⟩ := hall (n + 1) (by omega)
        exact ⟨b', by rw [← hb']; congr 1; omega⟩)
      (Or.inr rfl)
    refine ⟨st', hst', ?_⟩
    simp only [retryLoop, hb, ne_eq, not_true_eq_false, if_false]
    rw [hrun]
    simp [List.replicate_succ]

theorem requestCount_retriedLog (req : WHTTPReq) (K : Nat) :
    requestCount (retriedLog req K) = K + 1 := by
  induction K with
  | zero => simp [requestCount, retriedLog]
  | succ K ih =>
    simp only [requestCount, retriedLog] at ih ⊢
    simp only [List.replicate_succ, List.flatten_cons, List.append_assoc, List.countP_append] at ih ⊢
    simp [List.countP_cons] at ih ⊢
    omega

theorem sleepCount_retriedLog (req : WHTTPReq) (K : Nat) :
    sleepCount RATE_LIMIT_WAIT_TIME_SEC (retriedLog req K) = K := by
  induction K with
  | zero => simp [sleepCount, retriedLog]
  | succ K ih =>
    simp only [sleepCount, retriedLog] at ih ⊢
    simp only [List.replicate_succ, List.flatten_cons, List.append_assoc, List.count_append] at ih ⊢
    simp [List.count_cons] at ih ⊢
    omega

/-- A call of `getProgramScope` that is rate limited `K` times, with `K` below the
maximum, and then answered with a status of at most 200. -/
theorem getProgramScope_of_answer (send : Transport) (authorization id : String)
    (bbpOnly : Bool) (cats : List String) (K : Nat) (res : WHTTPRes)
    (hK : K < RATE_LIMIT_MAX_RETRIES)
    (hsend : AnswersAfter send (detailRequest authorization id) K res)
    (hok : res.StatusCode ≤ 200) :
    getProgramScope send authorization id bbpOnly cats =
      ⟨retriedLog (detailRequest authorization id) K,
        Outcome.ok (buildProgramData id res.BodyString bbpOnly cats)⟩ := by
  have hne : res.StatusCode ≠ RATE_LIMIT_HTTP_STATUS := by
    simp only [RATE_LIMIT_HTTP_STATUS]; omega
  have h := retryLoop_answersAfter send (detailRequest authorization id) res K
    RATE_LIMIT_MAX_RETRIES 0 ⟨⟨0, ⟨false, [], "", []⟩⟩, -1⟩ [] hK
    (fun n hn => by simpa using hsend.1 n hn) (by simpa using hsend.2) hne
  simp only [getProgramScope, h, List.nil_append]
  have : ¬ res.StatusCode > 200 := by omega
  simp [this]

theorem handlesStep_eq (body : Body) (pvtOnly publicOnly active : Bool)
    (hflags : ¬ (pvtOnly = true ∧ publicOnly = true)) :
    handlesStep body pvtOnly publicOnly active =
      fun acc i => handlesOn pvtOnly publicOnly active acc (body.data.getD i Program.zero) := by
  funext acc i
  simp only [handlesStep, handlesOn, SpecMatches]
  generalize body.data.getD i Program.zero = p
  cases pvtOnly <;> cases publicOnly <;> cases active <;> simp at hflags ⊢
  all_goals
    by_cases h₁ : p.state = "soft_launched" <;> by_cases h₂ : p.submission_state = "open" <;>
      by_cases h₃ : p.state = "public_mode" <;> simp [h₁, h₂, h₃]

theorem foldl_handlesOn (pvtOnly publicOnly active : Bool) (l : List Program)
    (init : List String) :
    l.foldl (handlesOn pvtOnly publicOnly active) init =
      init ++ (l.filter (fun p => decide (SpecMatches pvtOnly publicOnly active p))).map
        Program.handle := by
  induction l generalizing init with
  | nil => simp
  | cons e l ih =>
    by_cases h : SpecMatches pvtOnly publicOnly active e
    · simp [List.foldl_cons, ih, handlesOn, h]
    · simp [List.foldl_cons, ih, handlesOn, h]

theorem foldl_handlesStep (body : Body) (pvtOnly publicOnly active : Bool)
    (hflags : ¬ (pvtOnly = true ∧ publicOnly = true)) (init : List String) :
    (List.range body.data.length).foldl (handlesStep body pvtOnly publicOnly active) init =
      init ++ pageHandles pvtOnly publicOnly active body := by
  rw [handlesStep_eq body pvtOnly publicOnly active hflags,
    foldl_range_getD (handlesOn pvtOnly publicOnly active) Program.zero, foldl_handlesOn]
  rfl

theorem collectPages_eq (pvtOnly publicOnly active : Bool)
    (hflags : ¬ (pvtOnly = true ∧ publicOnly = true)) (pages : List Body) (handles : List String) :
    collectPages pvtOnly publicOnly active handles pages =
      handles ++ pages.flatMap (pageHandles pvtOnly publicOnly active) := by
  induction pages generalizing handles with
  | nil => simp [collectPages]
  | cons b rest ih =>
    simp [collectPages, ih, foldl_handlesStep b pvtOnly publicOnly active hflags]

theorem handlesLoop_servesPages (send : Transport) (authorization : String)
    (pvtOnly publicOnly active : Bool) (pages : List Body) :
    ∀ (fuel n : Nat) (url : String) (handles : List String) (log : List Event),
      ServesPages send authorization n url pages →
      handlesLoop send authorization pvtOnly publicOnly active (fuel + pages.length) n url
          handles log =
        handlesLoop send authorization pvtOnly publicOnly active fuel (n + pages.length)
          (cursorAfter url pages) (collectPages pvtOnly publicOnly active handles pages)
          (log ++ (pageURLs url pages).map
            (fun u => Event.request (listingRequest authorization u))) := by
  induction pages with
  | nil => intro fuel n url handles log _; simp [cursorAfter, pageURLs, collectPages]
  | cons b rest ih =>
    intro fuel n url handles log h
    obtain ⟨hsend, h401, hnext, hrest⟩ := h
    have hstep := ih fuel (n + 1) b.linksNext
      ((List.range b.data.length).foldl (handlesStep b pvtOnly publicOnly active) handles)
      (log ++ [Event.request (listingRequest authorization url)]) hrest
    have hlen : fuel + (b :: rest).length = (fuel + rest.length) + 1 := by
      simp [List.length_cons]; omega
    rw [hlen]
    simp only [handlesLoop, hsend, ne_eq, not_true_eq_false, if_false, h401, hnext,
      Bool.false_eq_true]
    rw [hstep]
    simp [cursorAfter, pageURLs, collectPages, List.length_cons, Nat.add_assoc, Nat.add_comm 1]

theorem length_pageURLs (url : String) (pages : List Body) :
    (pageURLs url pages).length = pages.length := by
  induction pages generalizing url with
  | nil => rfl
  | cons b rest ih => simp [pageURLs, ih]

theorem pageURLs_append (url : String) (pages : List Body) (last : Body) :
    pageURLs url (pages ++ [last]) = pageURLs url pages ++ [cursorAfter url pages] := by
  induction pages generalizing url with
  | nil => rfl
  | cons b rest ih => simp [pageURLs, cursorAfter, ih]

/-- C1: when the detail endpoint finally answers (after fewer rate-limited attempts than
the maximum) with a payload that has at least one structured-scope entry,
`getProgramScope` returns as `InScope` exactly the entries, in payload order, whose
asset type is in the category filter, that are eligible for submission and, when
`bbpOnly` is set, eligible for bounty; each is mapped to its asset identifier, its
instruction with every line break replaced by two spaces, and the category `""`.  In
particular `InScope` is the empty list, without sentinel, when no entry passes. -/
theorem getProgramScope_inScope_eq_filter (send : Transport) (authorization id : String)
    (bbpOnly : Bool) (cats : List String) (K : Nat) (res : WHTTPRes)
    (hK : K < RATE_LIMIT_MAX_RETRIES)
    (hsend : AnswersAfter send (detailRequest authorization id) K res)
    (hok : res.StatusCode ≤ 200) (hentries : res.BodyString.structuredScopes ≠ []) :
    (getProgramScope send authorization id bbpOnly cats).result =
        Outcome.ok
          { Url := "https://hackerone.com/" ++ id
            InScope := (res.BodyString.structuredScopes.filter
              (fun e => decide (passesFilter bbpOnly cats e))).map scopeElementOf } ∧
      ((∀ e ∈ res.BodyString.structuredScopes, ¬ passesFilter bbpOnly cats e) →
        (getProgramScope send authorization id bbpOnly cats).result =
          Outcome.ok { Url := "https://hackerone.com/" ++ id, InScope := [] }) := by
  have hrun := getProgramScope_of_answer send authorization id bbpOnly cats K res hK hsend hok
  have hin := buildProgramData_InScope id res.BodyString bbpOnly cats
  rw [if_neg hentries] at hin
  have hpd : buildProgramData id res.BodyString bbpOnly cats =
      { Url := "https://hackerone.com/" ++ id
        InScope := (res.BodyString.structuredScopes.filter
          (fun e => decide (passesFilter bbpOnly cats e))).map scopeElementOf } := by
    rw [← hin]; rfl
  refine ⟨by rw [hrun, hpd], fun hnone => ?_⟩
  have hempty : res.BodyString.structuredScopes.filter
      (fun e => decide (passesFilter bbpOnly cats e)) = [] := by
    rw [List.filter_eq_nil_iff]
    intro e he
    simpa using hnone e he
  rw [hrun, hpd, hempty]
  rfl

/-- Witness of C1: a payload of two entries fetched after one rate-limited attempt. -/
theorem getProgramScope_inScope_eq_filter_witness :
    (getProgramScope (limitedEndpoint 1 200 sampleDetail) "token" "acme" false ["URL"]).result =
        Outcome.ok
          { Url := "https://hackerone.com/" ++ "acme"
            InScope := (sampleDetail.structuredScopes.filter
              (fun e => decide (passesFilter false ["URL"] e))).map scopeElementOf } ∧
      ((∀ e ∈ sampleDetail.structuredScopes, ¬ passesFilter false ["URL"] e) →
        (getProgramScope (limitedEndpoint 1 200 sampleDetail) "token" "acme" false ["URL"]).result =
          Outcome.ok { Url := "https://hackerone.com/" ++ "acme", InScope := [] }) :=
  getProgramScope_inScope_eq_filter (limitedEndpoint 1 200 sampleDetail) "token" "acme" false
    ["URL"] 1 ⟨200, sampleDetail⟩ (by decide)
    ⟨fun n hn => ⟨emptyBody, by simp [limitedEndpoint, hn]⟩, by simp [limitedEndpoint]⟩
    (by decide) (by decide)

/-- C2: when the detail endpoint finally answers with a payload that has no entry in
its structured scopes, `getProgramScope` returns an `InScope` of exactly one element,
the sentinel of target `NO_IN_SCOPE_TABLE` with empty description and category,
whatever the category filter and the bounty flag. -/
theorem getProgramScope_sentinel (send : Transport) (authorization id : String)
    (bbpOnly : Bool) (cats : List String) (K : Nat) (res : WHTTPRes)
    (hK : K < RATE_LIMIT_MAX_RETRIES)
    (hsend : AnswersAfter send (detailRequest authorization id) K res)
    (hok : res.StatusCode ≤ 200) (hentries : res.BodyString.structuredScopes = []) :
    (getProgramScope send authorization id bbpOnly cats).result =
      Outcome.ok
        { Url := "https://hackerone.com/" ++ id
          InScope := [{ Target := "NO_IN_SCOPE_TABLE", Description := "", Category := "" }] } := by
  have hrun := getProgramScope_of_answer send authorization id bbpOnly cats K res hK hsend hok
  have hin := buildProgramData_InScope id res.BodyString bbpOnly cats
  rw [if_pos hentries] at hin
  rw [hrun, ← hin]
  rfl

/-- Witness of C2: an empty payload answered at the first attempt. -/
theorem getProgramScope_sentinel_witness :
    (getProgramScope (limitedEndpoint 0 200 emptyBody) "token" "acme" true ["CIDR"]).result =
      Outcome.ok
        { Url := "https://hackerone.com/" ++ "acme"
          InScope := [{ Target := "NO_IN_SCOPE_TABLE", Description := "", Category := "" }] } :=
  getProgramScope_sentinel (limitedEndpoint 0 200 emptyBody) "token" "acme" true ["CIDR"] 0
    ⟨200, emptyBody⟩ (by decide)
    ⟨fun n hn => absurd hn (Nat.not_lt_zero n), by simp [limitedEndpoint]⟩ (by decide) rfl

/-- C4: when the detail endpoint answers with the rate-limit status exactly `K` times,
`K` below the maximum retry count, and then with a successful response (a status of at
most 200), the run of `getProgramScope` is `K` times a request followed by a sleep of
the wait time and then one more request: `K + 1` requests and `K` sleeps; and it goes
on, without aborting, to build the program data from that response. -/
theorem getProgramScope_retries (send : Transport) (authorization id : String)
    (bbpOnly : Bool) (cats : List String) (K : Nat) (res : WHTTPRes)
    (hK : K < RATE_LIMIT_MAX_RETRIES)
    (hsend : AnswersAfter send (detailRequest authorization id) K res)
    (hok : res.StatusCode ≤ 200) :
    (getProgramScope send authorization id bbpOnly cats).log =
        retriedLog (detailRequest authorization id) K ∧
      requestCount (getProgramScope send authorization id bbpOnly cats).log = K + 1 ∧
      sleepCount RATE_LIMIT_WAIT_TIME_SEC (getProgramScope send authorization id bbpOnly cats).log
        = K ∧
      (getProgramScope send authorization id bbpOnly cats).log.length = (K + 1) + K ∧
      (getProgramScope send authorization id bbpOnly cats).result =
        Outcome.ok (buildProgramData id res.BodyString bbpOnly cats) := by
  have hrun := getProgramScope_of_answer send authorization id bbpOnly cats K res hK hsend hok
  rw [hrun]
  refine ⟨rfl, requestCount_retriedLog _ K, sleepCount_retriedLog _ K, ?_, rfl⟩
  simp [retriedLog, List.length_flatten]
  omega

/-- Witness of C4: three rate-limited attempts, then a 200. -/
theorem getProgramScope_retries_witness :
    (getProgramScope (limitedEndpoint 3 200 sampleDetail) "token" "acme" true ["URL", "CIDR"]).log =
        retriedLog (detailRequest "token" "acme") 3 ∧
      requestCount
        (getProgramScope (limitedEndpoint 3 200 sampleDetail) "token" "acme" true ["URL", "CIDR"]).log
        = 3 + 1 ∧
      sleepCount RATE_LIMIT_WAIT_TIME_SEC
        (getProgramScope (limitedEndpoint 3 200 sampleDetail) "token" "acme" true ["URL", "CIDR"]).log
        = 3 ∧
      (getProgramScope (limitedEndpoint 3 200 sampleDetail) "token" "acme" true
        ["URL", "CIDR"]).log.length = (3 + 1) + 3 ∧
      (getProgramScope (limitedEndpoint 3 200 sampleDetail) "token" "acme" true
        ["URL", "CIDR"]).result =
        Outcome.ok (buildProgramData "acme" sampleDetail true ["URL", "CIDR"]) :=
  getProgramScope_retries (limitedEndpoint 3 200 sampleDetail) "token" "acme" true ["URL", "CIDR"] 3
    ⟨200, sampleDetail⟩ (by decide)
    ⟨fun n hn => ⟨emptyBody, by simp [limitedEndpoint, hn]⟩, by simp [limitedEndpoint]⟩
    (by decide)

/-- C5: when the detail endpoint answers every request with the rate-limit status, the
retry loop of `getProgramScope` ends: the run is exactly `RATE_LIMIT_MAX_RETRIES` = 10
requests (each followed by a sleep) and then the fatal abort for the status 429; no
`ProgramData` is returned. -/
theorem getProgramScope_gives_up (send : Transport) (authorization id : String)
    (bbpOnly : Bool) (cats : List String)
    (hsend : ∀ n, ∃ b, send n (detailRequest authorization id) =
      Except.ok ⟨RATE_LIMIT_HTTP_STATUS, b⟩) :
    getProgramScope send authorization id bbpOnly cats =
        ⟨(List.replicate RATE_LIMIT_MAX_RETRIES [Event.request (detailRequest authorization id),
            Event.sleep RATE_LIMIT_WAIT_TIME_SEC]).flatten,
          Outcome.fatal (Fatal.couldNotRetrieve id RATE_LIMIT_HTTP_STATUS)⟩ ∧
      requestCount (getProgramScope send authorization id bbpOnly cats).log = 10 ∧
      ∀ pData, (getProgramScope send authorization id bbpOnly cats).result ≠ Outcome.ok pData := by
  obtain ⟨st, hst, hrun⟩ := retryLoop_allLimited send (detailRequest authorization id)
    RATE_LIMIT_MAX_RETRIES 0 ⟨⟨0, ⟨false, [], "", []⟩⟩, -1⟩ []
    (fun n _ => by simpa using hsend n) (Or.inl (by decide))
  have hrun' : getProgramScope send authorization id bbpOnly cats =
      ⟨(List.replicate RATE_LIMIT_MAX_RETRIES [Event.request (detailRequest authorization id),
          Event.sleep RATE_LIMIT_WAIT_TIME_SEC]).flatten,
        Outcome.fatal (Fatal.couldNotRetrieve id RATE_LIMIT_HTTP_STATUS)⟩ := by
    simp only [getProgramScope, hrun, List.nil_append, hst]
    simp [RATE_LIMIT_HTTP_STATUS]
  rw [hrun']
  refine ⟨rfl, ?_, fun pData h => by cases h⟩
  simp [requestCount, RATE_LIMIT_MAX_RETRIES, List.replicate, List.countP_cons]

/-- Witness of C5: an endpoint that always answers 429. -/
theorem getProgramScope_gives_up_witness :
    getProgramScope (fun _ _ => Except.ok ⟨RATE_LIMIT_HTTP_STATUS, emptyBody⟩) "token" "acme"
        false ["URL"] =
        ⟨(List.replicate RATE_LIMIT_MAX_RETRIES [Event.request (detailRequest "token" "acme"),
            Event.sleep RATE_LIMIT_WAIT_TIME_SEC]).flatten,
          Outcome.fatal (Fatal.couldNotRetrieve "acme" RATE_LIMIT_HTTP_STATUS)⟩ ∧
      requestCount (getProgramScope (fun _ _ => Except.ok ⟨RATE_LIMIT_HTTP_STATUS, emptyBody⟩)
        "token" "acme" false ["URL"]).log = 10 ∧
      ∀ pData, (getProgramScope (fun _ _ => Except.ok ⟨RATE_LIMIT_HTTP_STATUS, emptyBody⟩)
        "token" "acme" false ["URL"]).result ≠ Outcome.ok pData :=
  getProgramScope_gives_up (fun _ _ => Except.ok ⟨RATE_LIMIT_HTTP_STATUS, emptyBody⟩) "token"
    "acme" false ["URL"] (fun _ => ⟨emptyBody, rfl⟩)

/-- C6, refuted as stated: a program whose only structured-scope entry is not eligible
for submission yields a `ProgramData` with no in-scope entry at all. -/
theorem getProgramScope_inScope_can_be_empty :
    (getProgramScope
        (limitedEndpoint 0 200 ⟨false, [], "", [⟨"URL", "a.example.com", "", false, false⟩]⟩)
        "token" "acme" false ["URL"]).result =
      Outcome.ok { Url := "https://hackerone.com/acme", InScope := [] } := by
  decide

/-- C6, amended: when the payload has no structured-scope entry, or has an entry that
passes the category and eligibility filter, the `ProgramData` returned by
`getProgramScope` has at least one in-scope entry. -/
theorem getProgramScope_inScope_nonempty (send : Transport) (authorization id : String)
    (bbpOnly : Bool) (cats : List String) (K : Nat) (res : WHTTPRes)
    (hK : K < RATE_LIMIT_MAX_RETRIES)
    (hsend : AnswersAfter send (detailRequest authorization id) K res)
    (hok : res.StatusCode ≤ 200)
    (hentries : res.BodyString.structuredScopes = [] ∨
      ∃ e ∈ res.BodyString.structuredScopes, passesFilter bbpOnly cats e) :
    ∃ pData, (getProgramScope send authorization id bbpOnly cats).result = Outcome.ok pData ∧
      1 ≤ pData.InScope.length := by
  have hrun := getProgramScope_of_answer send authorization id bbpOnly cats K res hK hsend hok
  refine ⟨buildProgramData id res.BodyString bbpOnly cats, by rw [hrun], ?_⟩
  rw [buildProgramData_InScope]
  rcases hentries with h | ⟨e, he, hp⟩
  · simp [h]
  · have hne : res.BodyString.structuredScopes ≠ [] := List.ne_nil_of_mem he
    rw [if_neg hne, List.length_map]
    exact List.length_pos_of_mem (List.mem_filter.2 ⟨he, by simpa using hp⟩)

/-- Witness of C6 amended: a payload whose second entry passes the filter. -/
theorem getProgramScope_inScope_nonempty_witness :
    ∃ pData, (getProgramScope (limitedEndpoint 2 200 sampleDetail) "token" "acme" true
        ["CIDR"]).result = Outcome.ok pData ∧ 1 ≤ pData.InScope.length :=
  getProgramScope_inScope_nonempty (limitedEndpoint 2 200 sampleDetail) "token" "acme" true
    ["CIDR"] 2 ⟨200, sampleDetail⟩ (by decide)
    ⟨fun n hn => ⟨emptyBody, by simp [limitedEndpoint, hn]⟩, by simp [limitedEndpoint]⟩
    (by decide) (Or.inr ⟨⟨"CIDR", "10.0.0.0/8", "", true, true⟩, by decide, by decide⟩)

theorem requestCount_requests (authorization : String) (urls : List String) :
    requestCount (urls.map (fun u => Event.request (listingRequest authorization u))) =
      urls.length := by
  induction urls with
  | nil => rfl
  | cons u us ih =>
    simp only [requestCount] at ih
    simp [requestCount, List.countP_cons, ih]

/-- C3: when the listing endpoint serves a chain of `N` pages (the pages `pages` and
then `last`, each with status 200 and without the authentication-failure marker, each
but `last` with a cursor to the next one) and private-only and public-only are not
both set, then with fuel for `N` iterations or more `getProgramHandles` returns.  The
run consists of exactly `N` requests, one per page and in cursor order, and its value is
the list of the handles of the programs that satisfy the predicate (state
`public_mode` under public-only, state `soft_launched` under private-only, submission
state `open` under active-only), page by page and in page order. -/
theorem getProgramHandles_walks_chain (send : Transport) (authorization : String)
    (pvtOnly publicOnly active : Bool) (pages : List Body) (last : Body) (fuel : Nat)
    (hflags : ¬ (pvtOnly = true ∧ publicOnly = true))
    (hpages : ServesPages send authorization 0 firstListingURL pages)
    (hlast : send pages.length (listingRequest authorization (cursorAfter firstListingURL pages)) =
      Except.ok ⟨200, last⟩)
    (h401 : last.contains401 = false) (hend : last.linksNext = "")
    (hfuel : pages.length + 1 ≤ fuel) :
    ∃ run, getProgramHandles send authorization pvtOnly publicOnly active fuel = some run ∧
      run.log = (pageURLs firstListingURL (pages ++ [last])).map
        (fun u => Event.request (listingRequest authorization u)) ∧
      run.log.length = pages.length + 1 ∧
      requestCount run.log = pages.length + 1 ∧
      run.result =
        Outcome.ok ((pages ++ [last]).flatMap (fun b =>
          (b.data.filter (fun p => decide (SpecMatches pvtOnly publicOnly active p))).map
            Program.handle)) := by
  obtain ⟨extra, rfl⟩ : ∃ extra, fuel = (extra + 1) + pages.length :=
    ⟨fuel - (pages.length + 1), by omega⟩
  have hwalk := handlesLoop_servesPages send authorization pvtOnly publicOnly active pages
    (extra + 1) 0 firstListingURL [] [] hpages
  simp only [Nat.zero_add] at hwalk
  refine ⟨⟨(pageURLs firstListingURL (pages ++ [last])).map
      (fun u => Event.request (listingRequest authorization u)),
    Outcome.ok ((pages ++ [last]).flatMap (pageHandles pvtOnly publicOnly active))⟩, ?_, rfl, ?_,
    ?_, rfl⟩
  · rw [getProgramHandles, hwalk, collectPages_eq pvtOnly publicOnly active hflags]
    simp only [handlesLoop, hlast, ne_eq, not_true_eq_false, if_false, h401, hend,
      Bool.false_eq_true, if_true, foldl_handlesStep last pvtOnly publicOnly active hflags]
    simp [pageURLs_append]
  · simp [length_pageURLs]
  · rw [requestCount_requests]
    simp [length_pageURLs]

/-- Witness of C3: the two pages of the sample listing, public programs only. -/
theorem getProgramHandles_walks_chain_witness :
    ∃ run, getProgramHandles sampleListing "token" false true false 2 = some run ∧
      run.log = (pageURLs firstListingURL ([samplePage1] ++ [samplePage2])).map
        (fun u => Event.request (listingRequest "token" u)) ∧
      run.log.length = [samplePage1].length + 1 ∧
      requestCount run.log = [samplePage1].length + 1 ∧
      run.result =
        Outcome.ok (([samplePage1] ++ [samplePage2]).flatMap (fun b =>
          (b.data.filter (fun p => decide (SpecMatches false true false p))).map
            Program.handle)) :=
  getProgramHandles_walks_chain sampleListing "token" false true false [samplePage1] samplePage2 2
    (by decide) ⟨rfl, by decide, by decide, trivial⟩ rfl (by decide) (by decide)
    (by decide)

/-- C7, refuted as stated: the listing endpoint answers the first page request with 429
once and would then serve a 200 page; `getProgramHandles` sends a single request, does
not sleep, and aborts with the status 429. -/
theorem getProgramHandles_no_retry :
    getProgramHandles (limitedEndpoint 1 200 samplePage2) "token" false false false 5 =
      some ⟨[Event.request (listingRequest "token" firstListingURL)],
        Outcome.fatal (Fatal.statusCode 429)⟩ := by
  decide

/-- C7, amended: `getProgramHandles` sends each listing request once.  When, after the
pages `pages`, the endpoint answers the next page request with a status other than 200
(the rate-limit status 429 included), the run is one request per page served and the
request so answered, with no sleep, and it ends with the fatal abort for that status. -/
theorem getProgramHandles_aborts_on_status (send : Transport) (authorization : String)
    (pvtOnly publicOnly active : Bool) (pages : List Body) (res : WHTTPRes) (fuel : Nat)
    (hpages : ServesPages send authorization 0 firstListingURL pages)
    (hres : send pages.length (listingRequest authorization (cursorAfter firstListingURL pages)) =
      Except.ok res)
    (hstatus : res.StatusCode ≠ 200) (hfuel : pages.length + 1 ≤ fuel) :
    getProgramHandles send authorization pvtOnly publicOnly active fuel =
      some ⟨(pageURLs firstListingURL pages ++ [cursorAfter firstListingURL pages]).map
          (fun u => Event.request (listingRequest authorization u)),
        Outcome.fatal (Fatal.statusCode res.StatusCode)⟩ := by
  obtain ⟨extra, rfl⟩ : ∃ extra, fuel = (extra + 1) + pages.length :=
    ⟨fuel - (pages.length + 1), by omega⟩
  have hwalk := handlesLoop_servesPages send authorization pvtOnly publicOnly active pages
    (extra + 1) 0 firstListingURL [] [] hpages
  simp only [Nat.zero_add] at hwalk
  rw [getProgramHandles, hwalk]
  simp [handlesLoop, hres, hstatus]

/-- Witness of C7 amended: the second page request is answered 429. -/
theorem getProgramHandles_aborts_on_status_witness :
    getProgramHandles limitedSecondPage "token" true false true 4 =
      some ⟨(pageURLs firstListingURL [samplePage1] ++
            [cursorAfter firstListingURL [samplePage1]]).map
          (fun u => Event.request (listingRequest "token" u)),
        Outcome.fatal (Fatal.statusCode (429 : Int))⟩ :=
  getProgramHandles_aborts_on_status limitedSecondPage "token" true false true [samplePage1]
    ⟨429, emptyBody⟩ 4 ⟨rfl, by decide, by decide, trivial⟩ rfl (by decide) (by decide)

theorem unicodeToLower_ascii (caseTable : Char → Char) (r : Char) (h : r.toNat ≤ 127) :
    unicodeToLower caseTable r = unicodeToLower id r := by
  simp [unicodeToLower, h]

theorem ToLower_ascii (caseTable : Char → Char) (s : String)
    (h : ∀ r ∈ s.data, r.toNat ≤ 127) : ToLower caseTable s = ToLower id s := by
  unfold ToLower
  congr 1
  exact List.map_congr_left (fun r hr => unicodeToLower_ascii caseTable r (h r hr))

theorem getCategories_ascii (caseTable : Char → Char) (s : String)
    (h : ∀ r ∈ s.data, r.toNat ≤ 127) : getCategories caseTable s = getCategories id s := by
  unfold getCategories
  rw [ToLower_ascii caseTable s h]

theorem ToLower_caseVariant (caseTable : Char → Char) (k k' : String)
    (h : CaseVariant caseTable k k') : ToLower caseTable k = ToLower caseTable k' := by
  unfold ToLower
  congr 1
  unfold CaseVariant at h
  generalize k.data = l at h
  generalize k'.data = l' at h
  induction h with
  | nil => rfl
  | cons hab _ ih => simp [hab, ih]

set_option maxRecDepth 100000 in
theorem unicodeToLower_ascii_case : ∀ n, n < 128 →
    (Char.toUpper (Char.ofNat n)).toNat ≤ 127 ∧ (Char.toLower (Char.ofNat n)).toNat ≤ 127 ∧
      unicodeToLower id (Char.toUpper (Char.ofNat n)) = unicodeToLower id (Char.ofNat n) ∧
      unicodeToLower id (Char.toLower (Char.ofNat n)) = unicodeToLower id (Char.ofNat n) := by
  decide

theorem unicodeToLower_swap_case (caseTable : Char → Char) (c : Char) :
    unicodeToLower caseTable (Char.toUpper c) = unicodeToLower caseTable c ∧
      unicodeToLower caseTable (Char.toLower c) = unicodeToLower caseTable c := by
  by_cases h : c.toNat ≤ 127
  · have ht := unicodeToLower_ascii_case c.toNat (by omega)
    rw [Char.ofNat_toNat] at ht
    obtain ⟨h1, h2, h3, h4⟩ := ht
    rw [unicodeToLower_ascii caseTable _ h1, unicodeToLower_ascii caseTable _ h2,
      unicodeToLower_ascii caseTable _ h, h3, h4]
    exact ⟨rfl, rfl⟩
  · have hu : Char.toUpper c = c := by
      unfold Char.toUpper
      simp only []
      rw [if_neg (by omega)]
    have hl : Char.toLower c = c := by
      unfold Char.toLower
      simp only []
      rw [if_neg (by omega)]
    rw [hu, hl]
    exact ⟨rfl, rfl⟩

theorem caseVariant_refl (caseTable : Char → Char) (k : String) : CaseVariant caseTable k k := by
  unfold CaseVariant
  exact List.forall₂_same.2 (fun _ _ => rfl)

theorem caseVariant_map (caseTable : Char → Char) (f : Char → Char)
    (hf : ∀ c, unicodeToLower caseTable (f c) = unicodeToLower caseTable c) (k : String) :
    CaseVariant caseTable (String.mk (k.data.map f)) k := by
  unfold CaseVariant
  simp only
  generalize k.data = l
  induction l with
  | nil => exact List.Forall₂.nil
  | cons c cs ih => exact List.Forall₂.cons (hf c) ih

/-- C8: category resolution does not depend on letter case.  Two keywords that differ at
most in letter case (same length and, position by position, runes with the same
lower-case form) have the same outcome of `getCategories`: both the fatal "Invalid
category", or both the same list of tags.  In particular writing the ASCII letters of a
keyword in upper case, or in lower case, does not change the outcome, and `"URL"`
resolves as `"url"` does, to the tag `URL`.  A keyword is a variant of itself: resolving
it again gives the same outcome. -/
theorem getCategories_case_insensitive (caseTable : Char → Char) (k k' : String)
    (h : CaseVariant caseTable k k') :
    getCategories caseTable k = getCategories caseTable k' ∧
      getCategories caseTable (String.mk (k.data.map Char.toUpper)) = getCategories caseTable k ∧
      getCategories caseTable (String.mk (k.data.map Char.toLower)) = getCategories caseTable k ∧
      getCategories caseTable "URL" = getCategories caseTable "url" ∧
      getCategories caseTable "URL" = Outcome.ok ["URL"] ∧
      CaseVariant caseTable k k := by
  have hcongr : ∀ a b, CaseVariant caseTable a b →
      getCategories caseTable a = getCategories caseTable b := by
    intro a b hab
    unfold getCategories
    rw [ToLower_caseVariant caseTable a b hab]
  refine ⟨hcongr k k' h, ?_, ?_, ?_, ?_, caseVariant_refl caseTable k⟩
  · exact hcongr _ _ (caseVariant_map caseTable Char.toUpper
      (fun c => (unicodeToLower_swap_case caseTable c).1) k)
  · exact hcongr _ _ (caseVariant_map caseTable Char.toLower
      (fun c => (unicodeToLower_swap_case caseTable c).2) k)
  · rw [getCategories_ascii caseTable "URL" (by decide), getCategories_ascii caseTable "url" (by decide)]
    decide
  · rw [getCategories_ascii caseTable "URL" (by decide)]
    decide

/-- Witness of C8: `"Android"` and `"aNDROID"`. -/
theorem getCategories_case_insensitive_witness :
    getCategories id "Android" = getCategories id "aNDROID" ∧
      getCategories id (String.mk ("Android".data.map Char.toUpper)) = getCategories id "Android" ∧
      getCategories id (String.mk ("Android".data.map Char.toLower)) = getCategories id "Android" ∧
      getCategories id "URL" = getCategories id "url" ∧
      getCategories id "URL" = Outcome.ok ["URL"] ∧
      CaseVariant id "Android" "Android" :=
  getCategories_case_insensitive id "Android" "aNDROID" (by
    unfold CaseVariant
    decide)

/-- C9: `getCategories("all")` returns a list of tags without duplicates, and a tag is
in that list if and only if it is in the list that `getCategories` returns for one of
the other keywords of the map. -/
theorem getCategories_all_is_union (caseTable : Char → Char) :
    ∃ all, getCategories caseTable "all" = Outcome.ok all ∧ all.Nodup ∧
      ∀ t, t ∈ all ↔
        ∃ k ∈ otherKeywords, ∃ tags, getCategories caseTable k = Outcome.ok tags ∧ t ∈ tags := by
  refine ⟨["URL", "CIDR", "GOOGLE_PLAY_APP_ID", "OTHER_APK", "APPLE_STORE_APP_ID", "OTHER",
    "HARDWARE", "SOURCE_CODE", "DOWNLOADABLE_EXECUTABLES"], ?_, by decide, ?_⟩
  · rw [getCategories_ascii caseTable "all" (by decide)]
    decide
  · intro t
    have hkeys : otherKeywords = ["url", "cidr", "mobile", "android", "apple", "other",
        "hardware", "code", "executable"] := by decide
    rw [hkeys]
    have h1 : getCategories caseTable "url" = Outcome.ok ["URL"] := by
      rw [getCategories_ascii caseTable _ (by decide)]; decide
    have h2 : getCategories caseTable "cidr" = Outcome.ok ["CIDR"] := by
      rw [getCategories_ascii caseTable _ (by decide)]; decide
    have h3 : getCategories caseTable "mobile" =
        Outcome.ok ["GOOGLE_PLAY_APP_ID", "OTHER_APK", "APPLE_STORE_APP_ID"] := by
      rw [getCategories_ascii caseTable _ (by decide)]; decide
    have h4 : getCategories caseTable "android" = Outcome.ok ["GOOGLE_PLAY_APP_ID", "OTHER_APK"] := by
      rw [getCategories_ascii caseTable _ (by decide)]; decide
    have h5 : getCategories caseTable "apple" = Outcome.ok ["APPLE_STORE_APP_ID"] := by
      rw [getCategories_ascii caseTable _ (by decide)]; decide
    have h6 : getCategories caseTable "other" = Outcome.ok ["OTHER"] := by
      rw [getCategories_ascii caseTable _ (by decide)]; decide
    have h7 : getCategories caseTable "hardware" = Outcome.ok ["HARDWARE"] := by
      rw [getCategories_ascii caseTable _ (by decide)]; decide
    have h8 : getCategories caseTable "code" = Outcome.ok ["SOURCE_CODE"] := by
      rw [getCategories_ascii caseTable _ (by decide)]; decide
    have h9 : getCategories caseTable "executable" = Outcome.ok ["DOWNLOADABLE_EXECUTABLES"] := by
      rw [getCategories_ascii caseTable _ (by decide)]; decide
    constructor
    · intro ht
      simp only [List.mem_cons, List.mem_singleton, List.not_mem_nil, or_false] at ht
      rcases ht with rfl | rfl | rfl | rfl | rfl | rfl | rfl | rfl | rfl
      · exact ⟨"url", by decide, _, h1, by decide⟩
      · exact ⟨"cidr", by decide, _, h2, by decide⟩
      · exact ⟨"android", by decide, _, h4, by decide⟩
      · exact ⟨"android", by decide, _, h4, by decide⟩
      · exact ⟨"apple", by decide, _, h5, by decide⟩
      · exact ⟨"other", by decide, _, h6, by decide⟩
      · exact ⟨"hardware", by decide, _, h7, by decide⟩
      · exact ⟨"code", by decide, _, h8, by decide⟩
      · exact ⟨"executable", by decide, _, h9, by decide⟩
    · rintro ⟨k, hk, tags, hres, ht⟩
      simp only [List.mem_cons, List.mem_singleton, List.not_mem_nil, or_false] at hk
      rcases hk with rfl | rfl | rfl | rfl | rfl | rfl | rfl | rfl | rfl
      · rw [h1] at hres; cases hres; revert ht
        simp only [List.mem_cons, List.mem_singleton, List.not_mem_nil, or_false]; tauto
      · rw [h2] at hres; cases hres; revert ht
        simp only [List.mem_cons, List.mem_singleton, List.not_mem_nil, or_false]; tauto
      · rw [h3] at hres; cases hres; revert ht
        simp only [List.mem_cons, List.mem_singleton, List.not_mem_nil, or_false]; tauto
      · rw [h4] at hres; cases hres; revert ht
        simp only [List.mem_cons, List.mem_singleton, List.not_mem_nil, or_false]; tauto
      · rw [h5] at hres; cases hres; revert ht
        simp only [List.mem_cons, List.mem_singleton, List.not_mem_nil, or_false]; tauto
      · rw [h6] at hres; cases hres; revert ht
        simp only [List.mem_cons, List.mem_singleton, List.not_mem_nil, or_false]; tauto
      · rw [h7] at hres; cases hres; revert ht
        simp only [List.mem_cons, List.mem_singleton, List.not_mem_nil, or_false]; tauto
      · rw [h8] at hres; cases hres; revert ht
        simp only [List.mem_cons, List.mem_singleton, List.not_mem_nil, or_false]; tauto
      · rw [h9] at hres; cases hres; revert ht
        simp only [List.mem_cons, List.mem_singleton, List.not_mem_nil, or_false]; tauto

end Hackerone
